import Mathlib

/-!
Verification of the pinstack-post-service core against its specification.

The Go source is shallowly embedded: each repository method, service
use-case, cache-decorator method and handler mapping becomes a Lean
function over an explicit relational store.  Fallible collaborators
(the user-service client, the database connection, the cache transport)
are modelled by environment records whose optional error fields inject the
error outcome of the corresponding call site; an absent error means the call
succeeds and its effect is computed from the store.  Transactions are
modelled by threading a transaction-local copy of the store: an error
return discards the copy (rollback), a successful commit installs it.
-/

namespace Pinstack

/-- Stable error kinds of the service (custom_errors package). -/
inductive Err where
  | PostNotFound
  | PostValidation
  | InvalidInput
  | Forbidden
  | ExternalServiceError
  | UserNotFound
  | DatabaseQuery
  | NoUpdateRows
  | MediaAttachFailed
  | MediaDetachFailed
  | MediaQueryFailed
  | MediaBatchQueryFailed
  | MediaReorderFailed
  | MediaNotFound
  | TagQueryFailed
  | TagScanFailed
  | TagCreateFailed
  | TagDeleteFailed
  | TagVerifyPostFailed
  | TagNotFound
  | TagsNotFound
  | TagPost
  | TagAlreadyExists
  | UnknownTagError
  | CacheMiss
  | InternalServiceError
deriving DecidableEq, Repr

/-- gRPC status codes used by the inbound handlers. -/
inductive StatusCode where
  | OK
  | NotFound
  | InvalidArgument
  | PermissionDenied
  | Internal
deriving DecidableEq, Repr

/-- model.User (external profile, not interpreted by this service). -/
structure User where
  id : Int
  username : String
deriving DecidableEq, Repr

/-- model.Post row; timestamps are abstracted to integers. -/
structure Post where
  id : Int
  authorId : Int
  title : String
  content : Option String
  createdAt : Int
  updatedAt : Int
deriving DecidableEq, Repr

/-- model.PostMedia row. -/
structure PostMedia where
  id : Int
  postId : Int
  url : String
  type : String
  position : Int
  createdAt : Int
deriving DecidableEq, Repr

/-- model.Tag row. -/
structure Tag where
  id : Int
  name : String
deriving DecidableEq, Repr

/-- model.PostMediaInput (wire media item and DTO media item). -/
structure PostMediaInput where
  url : String
  type : String
  position : Int
deriving DecidableEq, Repr

/-- model.CreatePostDTO. -/
structure CreatePostDTO where
  authorId : Int
  title : String
  content : Option String
  tags : List String
  mediaItems : List PostMediaInput
deriving DecidableEq, Repr

/-- model.UpdatePostDTO.  An absent mediaItems field models a nil Go
slice; a present empty list models a slice that is present but empty. -/
structure UpdatePostDTO where
  title : Option String
  content : Option String
  tags : List String
  mediaItems : Option (List PostMediaInput)
deriving DecidableEq, Repr

/-- model.PostFilters. -/
structure PostFilters where
  authorId : Option Int
  tagNames : List String
  createdAfter : Option Int
  createdBefore : Option Int
  limit : Option Nat
  offset : Option Nat
deriving DecidableEq, Repr

/-- model.PostDetailed aggregate. -/
structure PostDetailed where
  post : Post
  author : Option User
  media : List PostMedia
  tags : List Tag
deriving DecidableEq, Repr

/-- The relational store: the four tables plus the server-assigned
identity sequences. -/
structure Store where
  posts : List Post
  media : List PostMedia
  tags : List Tag
  postTags : List (Int × Int)
  nextPostId : Int
  nextMediaId : Int
  nextTagId : Int
deriving DecidableEq, Repr

/-! Generic insertion sort, used to model the ORDER BY clauses.  SQL does
not fix the relative order of ties, so any sort realises the query. -/

def insertLe (le : α → α → Bool) (x : α) : List α → List α
  | [] => [x]
  | y :: ys => if le x y then x :: y :: ys else y :: insertLe le x ys

def sortLe (le : α → α → Bool) : List α → List α
  | [] => []
  | x :: xs => insertLe le x (sortLe le xs)

theorem insertLe_perm (le : α → α → Bool) (x : α) (l : List α) :
    (insertLe le x l).Perm (x :: l) := by
  induction l with
  | nil => simp [insertLe]
  | cons y ys ih =>
    by_cases h : le x y
    · simp [insertLe, h]
    · simp only [insertLe, h, if_neg]
      exact ((ih.cons y).trans (List.Perm.swap x y ys)).symm.symm

theorem sortLe_perm (le : α → α → Bool) (l : List α) :
    (sortLe le l).Perm l := by
  induction l with
  | nil => simp [sortLe]
  | cons x xs ih =>
    exact (insertLe_perm le x (sortLe le xs)).trans (ih.cons x)

theorem insertLe_pairwise (le : α → α → Bool)
    (htrans : ∀ a b c, le a b = true → le b c = true → le a c = true)
    (htot : ∀ a b, le a b = false → le b a = true)
    (x : α) (l : List α)
    (h : l.Pairwise fun a b => le a b = true) :
    (insertLe le x l).Pairwise fun a b => le a b = true := by
  induction l with
  | nil => simp [insertLe]
  | cons y ys ih =>
    rcases List.pairwise_cons.mp h with ⟨h1, h2⟩
    by_cases hxy : le x y
    · simp only [insertLe, hxy, if_pos]
      refine List.pairwise_cons.mpr ⟨?_, h⟩
      intro z hz
      rcases List.mem_cons.mp hz with hz | hz
      · exact hz ▸ hxy
      · exact htrans x y z hxy (h1 z hz)
    · simp only [insertLe, hxy, if_neg]
      refine List.pairwise_cons.mpr ⟨?_, ih h2⟩
      intro z hz
      have hz2 : z ∈ x :: ys := (insertLe_perm le x ys).mem_iff.mp hz
      rcases List.mem_cons.mp hz2 with hz2 | hz2
      · exact hz2 ▸ htot x y (Bool.not_eq_true (le x y) ▸ eq_false_of_ne_true hxy)
      · exact h1 z hz2

theorem sortLe_pairwise (le : α → α → Bool)
    (htrans : ∀ a b c, le a b = true → le b c = true → le a c = true)
    (htot : ∀ a b, le a b = false → le b a = true)
    (l : List α) :
    (sortLe le l).Pairwise fun a b => le a b = true := by
  induction l with
  | nil => simp [sortLe]
  | cons x xs ih => exact insertLe_pairwise le htrans htot x (sortLe le xs) ih

/-! Media repository (infrastructure/outbound/repository/media/postgres).
Database transport failures are injected by the service-level
environments, so the pure functions below model the successful effect of
each SQL statement on the store. -/

namespace MediaRepository

/-- GetByPost: SELECT ... FROM post_media WHERE post_id = @postID ORDER BY position. -/
def GetByPost (st : Store) (postID : Int) : List PostMedia :=
  sortLe (fun a b => decide (a.position ≤ b.position))
    (st.media.filter (fun m => m.postId == postID))

/-- Detach: DELETE FROM post_media WHERE id = ANY(@ids). -/
def Detach (st : Store) (mediaIDs : List Int) : Store :=
  { st with media := st.media.filter (fun m => !(mediaIDs.contains m.id)) }

/-- Server-assigned identity and created_at for a batch insert. -/
def assignIds (nextId now : Int) : List PostMedia → List PostMedia
  | [] => []
  | r :: rest => { r with id := nextId, createdAt := now } :: assignIds (nextId + 1) now rest

/-- Attach: batch INSERT of the given rows into post_media. -/
def Attach (now : Int) (st : Store) (rows : List PostMedia) : Store :=
  { st with
    media := st.media ++ assignIds st.nextMediaId now rows
    nextMediaId := st.nextMediaId + rows.length }

end MediaRepository

/-! Tag repository (infrastructure/outbound/repository/tag/postgres). -/

namespace TagRepository

/-- FindByNames: SELECT id, name FROM tags WHERE name = ANY(@names). -/
def FindByNames (st : Store) (names : List String) : List Tag :=
  st.tags.filter (fun t => names.contains t.name)

/-- FindByPost: SELECT t.id, t.name FROM tags t JOIN posts_tags pt ON
pt.tag_id = t.id WHERE pt.post_id = @post_id. -/
def FindByPost (st : Store) (postID : Int) : List Tag :=
  (st.postTags.filter (fun l => l.1 == postID)).filterMap
    (fun l => st.tags.find? (fun t => t.id == l.2))

/-- Create: INSERT INTO tags(name) VALUES (@name) ON CONFLICT (name) DO
NOTHING RETURNING id, name.  When the insert is suppressed by the
conflict (pgx.ErrNoRows) or hits a unique violation (SQLSTATE 23505),
the repository re-reads the existing row via FindByNames and returns its
first element, so Create succeeds on an existing name. -/
def Create (st : Store) (name : String) : Store × Except Err Tag :=
  match st.tags.find? (fun t => t.name == name) with
  | some t => (st, Except.ok t)
  | none =>
      let t : Tag := ⟨st.nextTagId, name⟩
      ({ st with tags := st.tags ++ [t], nextTagId := st.nextTagId + 1 }, Except.ok t)

/-- SELECT id FROM tags WHERE name = @tag_name (the subselect used by the
posts_tags insert and delete statements). -/
def resolveTagId (st : Store) (name : String) : Option Int :=
  (st.tags.find? (fun t => t.name == name)).map Tag.id

/-- TagPost: one INSERT INTO posts_tags per name; a duplicate pair
(SQLSTATE 23505) is skipped. -/
def TagPost (st : Store) (postID : Int) (tagNames : List String) : Store :=
  tagNames.foldl
    (fun acc name =>
      match resolveTagId acc name with
      | none => acc
      | some tid =>
          if acc.postTags.contains (postID, tid) then acc
          else { acc with postTags := acc.postTags ++ [(postID, tid)] })
    st

/-- UntagPost: one DELETE FROM posts_tags per name. -/
def UntagPost (st : Store) (postID : Int) (tagNames : List String) : Store :=
  { st with
    postTags := st.postTags.filter
      (fun l => !(l.1 == postID && (tagNames.filterMap (resolveTagId st)).contains l.2)) }

/-- ReplacePostTags: DELETE FROM posts_tags WHERE post_id = @post_id,
then one INSERT per new name. -/
def ReplacePostTags (st : Store) (postID : Int) (newTags : List String) : Store :=
  TagPost { st with postTags := st.postTags.filter (fun l => l.1 != postID) } postID newTags

end TagRepository

/-! Post repository (infrastructure/outbound/repository/post/postgres). -/

namespace PostRepository

/-- GetByID: SELECT ... FROM posts WHERE id = @id. -/
def GetByID (st : Store) (id : Int) : Option Post :=
  st.posts.find? (fun p => p.id == id)

/-- Create: INSERT INTO posts with server-assigned id and timestamps. -/
def Create (now : Int) (st : Store) (newPost : Post) : Store × Post :=
  let created := { newPost with id := st.nextPostId, createdAt := now, updatedAt := now }
  ({ st with posts := st.posts ++ [created], nextPostId := st.nextPostId + 1 }, created)

/-- One element of the SET list built by Update. -/
inductive SetClause where
  | title (s : String)
  | content (s : String)
  | updatedAt
deriving DecidableEq, Repr

/-- The SET list of Update (repository.go:165-181): title and content
clauses are added only when the field is non-nil and non-empty, and the
updated_at clause is appended unconditionally afterwards. -/
def buildSetClauses (update : UpdatePostDTO) : List SetClause :=
  ((match update.title with
    | some t => if t ≠ "" then [SetClause.title t] else []
    | none => [])
   ++
   (match update.content with
    | some c => if c ≠ "" then [SetClause.content c] else []
    | none => []))
  ++ [SetClause.updatedAt]

def applyClause (now : Int) (p : Post) : SetClause → Post
  | SetClause.title t => { p with title := t }
  | SetClause.content c => { p with content := some c }
  | SetClause.updatedAt => { p with updatedAt := now }

/-- Update (repository.go:158-221): build the SET list, return
NoUpdateRows when it is empty, otherwise UPDATE posts ... WHERE id = @id
RETURNING the updated row (pgx.ErrNoRows becomes PostNotFound). -/
def Update (now : Int) (st : Store) (id : Int) (update : UpdatePostDTO) :
    Store × Except Err Post :=
  let setClauses := buildSetClauses update
  if setClauses.length == 0 then (st, Except.error Err.NoUpdateRows)
  else
    match st.posts.find? (fun p => p.id == id) with
    | none => (st, Except.error Err.PostNotFound)
    | some p =>
        let updated := setClauses.foldl (applyClause now) p
        ({ st with posts := st.posts.map (fun q => if q.id == id then updated else q) },
         Except.ok updated)

/-- Delete: DELETE FROM posts WHERE id = @id; zero affected rows becomes
PostNotFound. -/
def Delete (st : Store) (id : Int) : Store × Except Err Unit :=
  if st.posts.any (fun p => p.id == id) then
    ({ st with posts := st.posts.filter (fun p => p.id != id) }, Except.ok ())
  else (st, Except.error Err.PostNotFound)

/-- The WHERE predicate of List (repository.go:260-295): author equality,
strict created_at bounds, and, when tag names are given, the join on
posts_tags/tags with case-insensitive name matching (ILIKE without
wildcards).  SELECT DISTINCT collapses the row duplication the join
introduces, so a post matches when at least one of its links matches. -/
def matchesFilters (st : Store) (f : PostFilters) (p : Post) : Bool :=
  (match f.authorId with
   | some a => p.authorId == a
   | none => true) &&
  (match f.createdAfter with
   | some t => decide (t < p.createdAt)
   | none => true) &&
  (match f.createdBefore with
   | some t => decide (p.createdAt < t)
   | none => true) &&
  (f.tagNames.isEmpty ||
    st.postTags.any (fun l =>
      l.1 == p.id &&
      st.tags.any (fun t =>
        t.id == l.2 && f.tagNames.any (fun n => n.toLower == t.name.toLower))))

/-- ORDER BY p.created_at DESC. -/
def sortByCreatedDesc (l : List Post) : List Post :=
  sortLe (fun a b => decide (b.createdAt ≤ a.createdAt)) l

/-- List (repository.go:247-377): the SELECT DISTINCT query with ORDER
BY, OFFSET and LIMIT, and the COUNT(DISTINCT p.id) query that reuses the
same WHERE clauses with the limit and offset arguments removed. -/
def ListPosts (st : Store) (f : PostFilters) : List Post × Nat :=
  let sorted := sortByCreatedDesc (st.posts.filter (matchesFilters st f))
  let afterOffset := match f.offset with
    | some o => sorted.drop o
    | none => sorted
  let paged := match f.limit with
    | some l => afterOffset.take l
    | none => afterOffset
  (paged, (st.posts.filter (matchesFilters st f)).length)

end PostRepository

/-! Inbound handlers (infrastructure/inbound/grpc/post and
delivery/grpc/post). -/

namespace UpdatePostHandler

def MinMediaPosition : Int := 1
def MaxMediaPosition : Int := 9

/-- The media loop of the update handler
(infrastructure/inbound/grpc/post/update_post_handler.go:82-112),
carrying the running index i: an out-of-bounds position is replaced by
i+1, and when the adjusted position still exceeds the maximum the item
is skipped. -/
def dtoMediaItemsGo (i : Nat) : List PostMediaInput → List PostMediaInput
  | [] => []
  | m :: rest =>
      if m.position < MinMediaPosition ∨ m.position > MaxMediaPosition then
        if ((i : Int) + 1) > MaxMediaPosition then dtoMediaItemsGo (i + 1) rest
        else { url := m.url, type := m.type, position := (i : Int) + 1 } ::
             dtoMediaItemsGo (i + 1) rest
      else { url := m.url, type := m.type, position := m.position } ::
           dtoMediaItemsGo (i + 1) rest

/-- The DTO media list the handler forwards to the core. -/
def dtoMediaItems (media : List PostMediaInput) : List PostMediaInput :=
  dtoMediaItemsGo 0 media

/-- One enumerated item, handled the way the specification phrases the
normalization: an in-bounds position is forwarded unchanged, an
out-of-bounds position is replaced by the zero-based index plus one, and
the item is dropped when that replacement still exceeds nine. -/
def specItem (p : Nat × PostMediaInput) : Option PostMediaInput :=
  if MinMediaPosition ≤ p.2.position ∧ p.2.position ≤ MaxMediaPosition then
    some p.2
  else if ((p.1 : Int) + 1) ≤ MaxMediaPosition then
    some { url := p.2.url, type := p.2.type, position := (p.1 : Int) + 1 }
  else none

/-- The normalization stated as the specification phrases it, as a
filterMap over the index-enumerated input. -/
def dtoMediaItemsSpec (media : List PostMediaInput) : List PostMediaInput :=
  media.enum.filterMap specItem

/-- Error-to-status mapping of the update handler
(delivery/grpc/post/update_post_handler.go:92-103). -/
def statusOf : Err → StatusCode
  | Err.PostNotFound => StatusCode.NotFound
  | Err.PostValidation => StatusCode.InvalidArgument
  | Err.InvalidInput => StatusCode.PermissionDenied
  | _ => StatusCode.Internal

end UpdatePostHandler

namespace DeletePostHandler

/-- Error-to-status mapping of the delete handler (the switch in
DeletePostHandler.DeletePost). -/
def statusOf : Err → StatusCode
  | Err.PostNotFound => StatusCode.NotFound
  | Err.PostValidation => StatusCode.InvalidArgument
  | Err.Forbidden => StatusCode.PermissionDenied
  | Err.MediaQueryFailed => StatusCode.Internal
  | Err.MediaDetachFailed => StatusCode.Internal
  | Err.TagQueryFailed => StatusCode.Internal
  | Err.TagDeleteFailed => StatusCode.Internal
  | Err.DatabaseQuery => StatusCode.Internal
  | _ => StatusCode.Internal

end DeletePostHandler

/-! The core service (internal/service/post/service.go, the version with
lookup-first CreatePost and per-operation authorization). -/

/-- Decidable equality for call results, so that witnesses can be checked
by evaluation. -/
instance {ε α : Type _} [DecidableEq ε] [DecidableEq α] : DecidableEq (Except ε α) :=
  fun x y =>
    match x, y with
    | Except.ok a, Except.ok b =>
        if h : a = b then isTrue (by rw [h]) else isFalse (by intro hc; cases hc; exact h rfl)
    | Except.ok _, Except.error _ => isFalse (by intro hc; cases hc)
    | Except.error _, Except.ok _ => isFalse (by intro hc; cases hc)
    | Except.error e, Except.error f =>
        if h : e = f then isTrue (by rw [h]) else isFalse (by intro hc; cases hc; exact h rfl)

namespace PostService

/-- Collaborator outcomes for one CreatePost call.  A present error
field injects the error of the corresponding call site; an absent one
lets the call succeed
with its effect computed from the store. -/
structure CreateEnv where
  userResult : Option User
  beginOk : Bool
  createErr : Option Err
  attachErr : Option Err
  getMediaErr : Option Err
  findTagsErr : Option Err
  tagCreateErr : String → Option Err
  tagPostErr : Option Err
  commitOk : Bool
  now : Int

/-- Result of one CreatePost call: the store after commit or rollback,
the returned value, and whether UnitOfWork.Begin was invoked. -/
structure CreateOutcome where
  store : Store
  res : Except Err PostDetailed
  txBegan : Bool
deriving DecidableEq, Repr

/-- Error mapping of tagRepo.TagPost in CreatePost (service.go:365-383). -/
def mapTagPostErr : Err → Err
  | Err.PostNotFound => Err.PostNotFound
  | Err.TagNotFound => Err.TagNotFound
  | Err.TagVerifyPostFailed => Err.TagVerifyPostFailed
  | Err.TagPost => Err.TagPost
  | _ => Err.UnknownTagError

/-- The missing-tag creation loop of CreatePost (service.go:351-362):
a TagCreateFailed error is returned as such, any other creation error
becomes UnknownTagError, and each created tag is appended. -/
def createTagsLoop (env : CreateEnv) (st : Store) (acc : List Tag) :
    List String → Except Err (Store × List Tag)
  | [] => Except.ok (st, acc)
  | name :: rest =>
      match env.tagCreateErr name with
      | some e =>
          if e = Err.TagCreateFailed then Except.error Err.TagCreateFailed
          else Except.error Err.UnknownTagError
      | none =>
          match TagRepository.Create st name with
          | (st1, Except.ok t) => createTagsLoop env st1 (acc ++ [t]) rest
          | (_, Except.error _) => Except.error Err.UnknownTagError

/-- The transactional body of CreatePost (service.go:289-385): insert the
post, attach and re-read media when media items are given, then find,
create and link tags when tag names are given. -/
def createPostTx (env : CreateEnv) (st : Store) (dto : CreatePostDTO) (author : User) :
    Except Err (Store × PostDetailed) :=
  match env.createErr with
  | some e => Except.error (if e = Err.DatabaseQuery then Err.DatabaseQuery else e)
  | none =>
    match PostRepository.Create env.now st
        { id := 0, authorId := dto.authorId, title := dto.title,
          content := dto.content, createdAt := 0, updatedAt := 0 } with
    | (st1, createdPost) =>
      match (if dto.mediaItems.length > 0 then
               match env.attachErr with
               | some _ => Except.error Err.MediaAttachFailed
               | none =>
                   let rows := dto.mediaItems.map (fun m =>
                     { id := 0, postId := createdPost.id, url := m.url,
                       type := m.type, position := m.position, createdAt := 0 })
                   let st2 := MediaRepository.Attach env.now st1 rows
                   match env.getMediaErr with
                   | some _ => Except.error Err.MediaQueryFailed
                   | none => Except.ok (st2, MediaRepository.GetByPost st2 createdPost.id)
             else Except.ok (st1, ([] : List PostMedia))) with
      | Except.error e => Except.error e
      | Except.ok (st2, createdMedia) =>
        match (if dto.tags.length > 0 then
                 match env.findTagsErr with
                 | some _ => Except.error Err.TagQueryFailed
                 | none =>
                     let existingTags := TagRepository.FindByNames st2 dto.tags
                     let missingTags := dto.tags.filter
                       (fun n => !(existingTags.any (fun t => t.name == n)))
                     match createTagsLoop env st2 existingTags missingTags with
                     | Except.error e => Except.error e
                     | Except.ok (st3, createdTags) =>
                         match env.tagPostErr with
                         | some e => Except.error (mapTagPostErr e)
                         | none =>
                             Except.ok (TagRepository.TagPost st3 createdPost.id dto.tags,
                                        createdTags)
               else Except.ok (st2, ([] : List Tag))) with
        | Except.error e => Except.error e
        | Except.ok (st4, createdTags) =>
            Except.ok (st4, ⟨createdPost, some author, createdMedia, createdTags⟩)

/-- CreatePost (service.go:262-405): the author is fetched from the user
client first and a failed lookup returns ExternalServiceError before
UnitOfWork.Begin is invoked; afterwards the transactional body runs and
is committed, any error rolling the transaction back. -/
def CreatePost (env : CreateEnv) (st : Store) (dto : CreatePostDTO) : CreateOutcome :=
  match env.userResult with
  | none => ⟨st, Except.error Err.ExternalServiceError, false⟩
  | some author =>
      if env.beginOk then
        match createPostTx env st dto author with
        | Except.error e => ⟨st, Except.error e, true⟩
        | Except.ok (txSt, detailed) =>
            if env.commitOk then ⟨txSt, Except.ok detailed, true⟩
            else ⟨st, Except.error Err.DatabaseQuery, true⟩
      else ⟨st, Except.error Err.DatabaseQuery, true⟩

/-- Collaborator outcomes for one GetPostByID call; the ok payloads are
what the non-transactional repositories and the user client return. -/
structure GetEnv where
  postResult : Except Err Post
  userResult : Except Err User
  mediaResult : Except Err (List PostMedia)
  tagsResult : Except Err (List Tag)

/-- GetPostByID (service.go:407-475): a missing post maps to
PostNotFound and any other lookup error to DatabaseQuery; a missing user
passes through and any other user error becomes ExternalServiceError;
MediaNotFound and TagsNotFound collapse to empty lists while any other
media or tag error becomes MediaQueryFailed or TagQueryFailed. -/
def GetPostByID (env : GetEnv) : Except Err PostDetailed :=
  match env.postResult with
  | Except.error e =>
      Except.error (if e = Err.PostNotFound then Err.PostNotFound else Err.DatabaseQuery)
  | Except.ok post =>
    match env.userResult with
    | Except.error e =>
        Except.error (if e = Err.UserNotFound then Err.UserNotFound else Err.ExternalServiceError)
    | Except.ok author =>
      match (match env.mediaResult with
             | Except.error e =>
                 if e = Err.MediaNotFound then Except.ok ([] : List PostMedia)
                 else Except.error Err.MediaQueryFailed
             | Except.ok ms => Except.ok ms) with
      | Except.error e => Except.error e
      | Except.ok media =>
        match (match env.tagsResult with
               | Except.error e =>
                   if e = Err.TagsNotFound then Except.ok ([] : List Tag)
                   else Except.error Err.TagQueryFailed
               | Except.ok ts => Except.ok ts) with
        | Except.error e => Except.error e
        | Except.ok tags => Except.ok ⟨post, some author, media, tags⟩

/-- Collaborator outcomes for one UpdatePost call. -/
structure UpdateEnv where
  beginOk : Bool
  getPostErr : Option Err
  updateErr : Option Err
  getMediaErr : Option Err
  detachErr : Option Err
  attachErr : Option Err
  tagCreateErr : String → Option Err
  replaceTagsErr : Option Err
  commitOk : Bool
  now : Int

/-- The media replacement block of UpdatePost (service.go:582-617), run
only when the DTO media list has positive length: read the existing
media of the post, detach all of them, then attach the new rows.  A
MediaNotFound read error passes through, any other read error becomes
DatabaseQuery, and both detach and attach failures become
MediaAttachFailed. -/
def updateMediaStep (env : UpdateEnv) (st : Store) (id : Int)
    (items : List PostMediaInput) : Except Err Store :=
  match env.getMediaErr with
  | some e =>
      Except.error (if e = Err.MediaNotFound then Err.MediaNotFound else Err.DatabaseQuery)
  | none =>
      let mediaIds := (MediaRepository.GetByPost st id).map PostMedia.id
      match env.detachErr with
      | some _ => Except.error Err.MediaAttachFailed
      | none =>
          let st1 := MediaRepository.Detach st mediaIds
          if items.length > 0 then
            match env.attachErr with
            | some _ => Except.error Err.MediaAttachFailed
            | none =>
                let rows := items.map (fun m =>
                  { id := 0, postId := id, url := m.url, type := m.type,
                    position := m.position, createdAt := 0 })
                Except.ok (MediaRepository.Attach env.now st1 rows)
          else Except.ok st1

/-- The tag creation loop of UpdatePost (service.go:620-630): a
TagAlreadyExists error is tolerated, TagCreateFailed passes through, any
other creation error becomes UnknownTagError. -/
def updateTagsLoop (env : UpdateEnv) (st : Store) : List String → Except Err Store
  | [] => Except.ok st
  | name :: rest =>
      match env.tagCreateErr name with
      | some e =>
          if e = Err.TagAlreadyExists then updateTagsLoop env st rest
          else if e = Err.TagCreateFailed then Except.error Err.TagCreateFailed
          else Except.error Err.UnknownTagError
      | none => updateTagsLoop env (TagRepository.Create st name).1 rest

/-- The tag replacement block of UpdatePost (service.go:619-652): ensure
each tag exists, then replace the links of the post.  Every recognised
ReplacePostTags error kind is returned as itself and an unrecognised one
passes through unchanged. -/
def updateTagsStep (env : UpdateEnv) (st : Store) (id : Int)
    (tags : List String) : Except Err Store :=
  match updateTagsLoop env st tags with
  | Except.error e => Except.error e
  | Except.ok st1 =>
      match env.replaceTagsErr with
      | some e => Except.error e
      | none => Except.ok (TagRepository.ReplacePostTags st1 id tags)

/-- The transactional body of UpdatePost (service.go:554-652): load the
post, check authorship, apply the selective row update, then the media and
tag blocks. -/
def updatePostTx (env : UpdateEnv) (st : Store) (userID id : Int)
    (dto : UpdatePostDTO) : Except Err Store :=
  match (match env.getPostErr with
         | some e => Except.error e
         | none =>
             match PostRepository.GetByID st id with
             | none => Except.error Err.PostNotFound
             | some p => Except.ok p) with
  | Except.error e =>
      Except.error (if e = Err.PostNotFound then Err.PostNotFound else Err.DatabaseQuery)
  | Except.ok existingPost =>
    if existingPost.authorId ≠ userID then Except.error Err.InvalidInput
    else
      match (match env.updateErr with
             | some e => (st, Except.error e)
             | none => PostRepository.Update env.now st id dto) with
      | (_, Except.error e) =>
          Except.error (if e = Err.PostNotFound then Err.PostNotFound else Err.DatabaseQuery)
      | (st1, Except.ok _) =>
        match (if (dto.mediaItems.getD []).length > 0 then
                 updateMediaStep env st1 id (dto.mediaItems.getD [])
               else Except.ok st1) with
        | Except.error e => Except.error e
        | Except.ok st2 =>
          match (if dto.tags.length > 0 then updateTagsStep env st2 id dto.tags
                 else Except.ok st2) with
          | Except.error e => Except.error e
          | Except.ok st3 => Except.ok st3

/-- UpdatePost (service.go:533-666): begin, run the transactional body,
commit on success; every error path rolls the transaction back, leaving
the store unchanged. -/
def UpdatePost (env : UpdateEnv) (st : Store) (userID id : Int)
    (dto : UpdatePostDTO) : Store × Except Err Unit :=
  if env.beginOk then
    match updatePostTx env st userID id dto with
    | Except.error e => (st, Except.error e)
    | Except.ok txSt =>
        if env.commitOk then (txSt, Except.ok ())
        else (st, Except.error Err.DatabaseQuery)
  else (st, Except.error Err.DatabaseQuery)

/-- Collaborator outcomes for one DeletePost call. -/
structure DeleteEnv where
  beginOk : Bool
  getPostErr : Option Err
  getMediaErr : Option Err
  detachErr : Option Err
  findTagsErr : Option Err
  untagErr : Option Err
  deleteErr : Option Err
  commitOk : Bool

/-- The transactional body of DeletePost (service.go:689-767): load the
post, check authorship, detach existing media (a MediaNotFound read or
detach error is tolerated), untag existing tags (TagsNotFound and
TagNotFound are tolerated), then delete the row. -/
def deletePostTx (env : DeleteEnv) (st : Store) (userID id : Int) : Except Err Store :=
  match (match env.getPostErr with
         | some e => Except.error e
         | none =>
             match PostRepository.GetByID st id with
             | none => Except.error Err.PostNotFound
             | some p => Except.ok p) with
  | Except.error e =>
      Except.error (if e = Err.PostNotFound then Err.PostNotFound else Err.DatabaseQuery)
  | Except.ok post =>
    if post.authorId ≠ userID then Except.error Err.Forbidden
    else
      match (match env.getMediaErr with
             | some e =>
                 if e = Err.MediaNotFound then Except.ok ([] : List PostMedia)
                 else Except.error Err.MediaQueryFailed
             | none => Except.ok (MediaRepository.GetByPost st id)) with
      | Except.error e => Except.error e
      | Except.ok media =>
        let mediaIds := media.map PostMedia.id
        match (if mediaIds.length > 0 then
                 match env.detachErr with
                 | some e =>
                     if e = Err.MediaNotFound then Except.ok st
                     else Except.error Err.MediaDetachFailed
                 | none => Except.ok (MediaRepository.Detach st mediaIds)
               else Except.ok st) with
        | Except.error e => Except.error e
        | Except.ok st1 =>
          match (match env.findTagsErr with
                 | some e =>
                     if e = Err.TagsNotFound then Except.ok ([] : List Tag)
                     else Except.error Err.TagQueryFailed
                 | none => Except.ok (TagRepository.FindByPost st1 id)) with
          | Except.error e => Except.error e
          | Except.ok tags =>
            let tagNames := tags.map Tag.name
            match (if tagNames.length > 0 then
                     match env.untagErr with
                     | some e =>
                         if e = Err.TagNotFound then Except.ok st1
                         else Except.error Err.TagDeleteFailed
                     | none => Except.ok (TagRepository.UntagPost st1 id tagNames)
                   else Except.ok st1) with
            | Except.error e => Except.error e
            | Except.ok st2 =>
              match (match env.deleteErr with
                     | some e => (st2, Except.error e)
                     | none => PostRepository.Delete st2 id) with
              | (_, Except.error e) =>
                  Except.error
                    (if e = Err.PostNotFound then Err.PostNotFound else Err.DatabaseQuery)
              | (st3, Except.ok _) => Except.ok st3

/-- DeletePost (service.go:668-779): begin, run the transactional body,
commit on success; every error path rolls the transaction back. -/
def DeletePost (env : DeleteEnv) (st : Store) (userID id : Int) :
    Store × Except Err Unit :=
  if env.beginOk then
    match deletePostTx env st userID id with
    | Except.error e => (st, Except.error e)
    | Except.ok txSt =>
        if env.commitOk then (txSt, Except.ok ())
        else (st, Except.error Err.DatabaseQuery)
  else (st, Except.error Err.DatabaseQuery)

end PostService

/-! The cache decorator
(internal/application/service/post/cache_decorator.go).  The inner
service outcome is passed as a value; the cache transport outcomes live
in the environment.  Each method returns its result together with the
list of cache mutations it attempts. -/

/-- A cache mutation attempted by the decorator. -/
inductive CacheEffect where
  | setPost (p : PostDetailed)
  | setUser (u : User)
  | deleteUser (id : Int)
  | deletePost (id : Int)
deriving DecidableEq, Repr

/-- Cache transport outcomes.  Set and delete failures are logged and
ignored by the decorator, so only the read outcomes influence values. -/
structure CacheEnv where
  getPost : Except Err PostDetailed
  getUser : Int → Except Err User
  setPostErr : Option Err
  setUserErr : Option Err
  deleteUserErr : Option Err
  deletePostErr : Option Err

namespace PostServiceCacheDecorator

/-- CreatePost (cache_decorator.go:42-79): an inner error is returned
unchanged with no cache access; on success the author cache entry is
invalidated, the post is written through, and the author is cached when
present.  The write outcomes in the environment are logged and ignored. -/
def CreatePost (_env : CacheEnv) (dto : CreatePostDTO)
    (inner : Except Err PostDetailed) : Except Err PostDetailed × List CacheEffect :=
  match inner with
  | Except.error e => (Except.error e, [])
  | Except.ok result =>
      (Except.ok result,
       [CacheEffect.deleteUser dto.authorId, CacheEffect.setPost result] ++
       (match result.author with
        | some a => [CacheEffect.setUser a]
        | none => []))

/-- GetPostByID (cache_decorator.go:81-130): a cache hit returns the
cached aggregate immediately; on any cache read error (the miss sentinel
or a transport failure, which is logged and ignored) the inner service
is consulted, its error passed through unchanged, and its success
written through to the post cache and, when the author is present, the
user cache. -/
def GetPostByID (env : CacheEnv) (inner : Except Err PostDetailed) :
    Except Err PostDetailed × List CacheEffect :=
  match env.getPost with
  | Except.ok cached => (Except.ok cached, [])
  | Except.error _ =>
      match inner with
      | Except.error e => (Except.error e, [])
      | Except.ok post =>
          (Except.ok post,
           [CacheEffect.setPost post] ++
           (match post.author with
            | some a => [CacheEffect.setUser a]
            | none => []))

/-- First-occurrence deduplication, standing in for the author-id set the
decorator builds (Go iterates that map in unspecified order; the
substitution below is order-insensitive). -/
def dedupFirst (seen l : List Int) : List Int :=
  match l with
  | [] => []
  | x :: xs =>
      if seen.contains x then dedupFirst seen xs
      else x :: dedupFirst (x :: seen) xs

/-- Substitution of a cached user into every detailed post of the author. -/
def substAuthor (a : Int) (u : User) (posts : List PostDetailed) : List PostDetailed :=
  posts.map (fun pd => if pd.post.authorId == a then { pd with author := some u } else pd)

/-- The per-author loop of ListPosts (cache_decorator.go:147-174): a user
cache hit substitutes the cached user into the posts of that author; on
a miss or error the author of the first post carrying one is written
through. -/
def listAuthorsLoop (env : CacheEnv) :
    List Int → List PostDetailed → List PostDetailed × List CacheEffect
  | [], posts => (posts, [])
  | a :: rest, posts =>
      match env.getUser a with
      | Except.ok u => listAuthorsLoop env rest (substAuthor a u posts)
      | Except.error _ =>
          let eff :=
            match posts.find? (fun pd => pd.post.authorId == a && pd.author.isSome) with
            | some pd =>
                match pd.author with
                | some au => [CacheEffect.setUser au]
                | none => []
            | none => []
          match listAuthorsLoop env rest posts with
          | (ps, effs) => (ps, eff ++ effs)

/-- ListPosts (cache_decorator.go:132-177): an inner error is returned
unchanged with no cache access; on success cached authors are
substituted and missing ones written through. -/
def ListPosts (env : CacheEnv) (inner : Except Err (List PostDetailed × Nat)) :
    Except Err (List PostDetailed × Nat) × List CacheEffect :=
  match inner with
  | Except.error e => (Except.error e, [])
  | Except.ok (posts, total) =>
      match listAuthorsLoop env (dedupFirst [] (posts.map (fun pd => pd.post.authorId))) posts with
      | (ps, effs) => (Except.ok (ps, total), effs)

/-- UpdatePost (cache_decorator.go:179-200): an inner error is returned
unchanged with no cache access; on success the post cache entry is
invalidated, a failed invalidation being logged and ignored. -/
def UpdatePost (_env : CacheEnv) (id : Int) (inner : Except Err Unit) :
    Except Err Unit × List CacheEffect :=
  match inner with
  | Except.error e => (Except.error e, [])
  | Except.ok _ => (Except.ok (), [CacheEffect.deletePost id])

/-- DeletePost (cache_decorator.go:202-223): same shape as UpdatePost. -/
def DeletePost (_env : CacheEnv) (id : Int) (inner : Except Err Unit) :
    Except Err Unit × List CacheEffect :=
  match inner with
  | Except.error e => (Except.error e, [])
  | Except.ok _ => (Except.ok (), [CacheEffect.deletePost id])

end PostServiceCacheDecorator

/-! Concrete data used by the witness theorems. -/

/-- A store holding one post by author 2 with one media row and one tag
link. -/
def egStore : Store where
  posts := [⟨1, 2, "First post", none, 0, 0⟩]
  media := [⟨5, 1, "http://example.com/a.jpg", "image", 1, 0⟩]
  tags := [⟨3, "tag1"⟩]
  postTags := [(1, 3)]
  nextPostId := 2
  nextMediaId := 6
  nextTagId := 4

/-- An update environment in which every collaborator call succeeds. -/
def egUpdateEnv : PostService.UpdateEnv where
  beginOk := true
  getPostErr := none
  updateErr := none
  getMediaErr := none
  detachErr := none
  attachErr := none
  tagCreateErr := fun _ => none
  replaceTagsErr := none
  commitOk := true
  now := 10

/-- A delete environment in which every collaborator call succeeds. -/
def egDeleteEnv : PostService.DeleteEnv where
  beginOk := true
  getPostErr := none
  getMediaErr := none
  detachErr := none
  findTagsErr := none
  untagErr := none
  deleteErr := none
  commitOk := true

/-- A create environment whose user lookup fails and whose remaining
collaborators would succeed. -/
def egCreateEnvUserFail : PostService.CreateEnv where
  userResult := none
  beginOk := true
  createErr := none
  attachErr := none
  getMediaErr := none
  findTagsErr := none
  tagCreateErr := fun _ => none
  tagPostErr := none
  commitOk := true
  now := 5

/-- The create request of end-to-end scenario 1 of the specification. -/
def egCreateDTO : CreatePostDTO where
  authorId := 1
  title := "Test Post"
  content := some "Test content"
  tags := ["tag1", "tag2"]
  mediaItems := [⟨"http://example.com/image.jpg", "image", 1⟩]

/-! Claim theorems. -/

/-- Claim C1: when the UserClient author lookup fails, CreatePost returns
ExternalServiceError, UnitOfWork.Begin is never invoked, and the store is
returned unchanged, so no post row, media row or tag link is written. -/
theorem createPost_user_lookup_failure (env : PostService.CreateEnv) (st : Store)
    (dto : CreatePostDTO) (h : env.userResult = none) :
    PostService.CreatePost env st dto =
      ⟨st, Except.error Err.ExternalServiceError, false⟩ := by
  simp [PostService.CreatePost, h]

/-- Witness for C1: scenario 2 of the specification, the create request
of scenario 1 against a failing user service. -/
theorem createPost_user_lookup_failure_witness :
    PostService.CreatePost egCreateEnvUserFail egStore egCreateDTO =
      ⟨egStore, Except.error Err.ExternalServiceError, false⟩ :=
  createPost_user_lookup_failure egCreateEnvUserFail egStore egCreateDTO rfl

/-- Claim C3: an UpdatePost call whose caller differs from the stored
author returns InvalidInput, leaves the store unchanged, and the inbound
handler maps InvalidInput to PermissionDenied. -/
theorem updatePost_non_author_invalid_input (env : PostService.UpdateEnv) (st : Store)
    (uid id : Int) (dto : UpdatePostDTO) (p : Post)
    (hbegin : env.beginOk = true) (hget : env.getPostErr = none)
    (hfind : PostRepository.GetByID st id = some p) (hne : p.authorId ≠ uid) :
    PostService.UpdatePost env st uid id dto = (st, Except.error Err.InvalidInput) ∧
    UpdatePostHandler.statusOf Err.InvalidInput = StatusCode.PermissionDenied := by
  refine ⟨?_, rfl⟩
  simp [PostService.UpdatePost, PostService.updatePostTx, hbegin, hget, hfind, hne]

/-- Witness for C3: scenario 4 of the specification, caller 1 updating
post 1 whose author is 2. -/
theorem updatePost_non_author_invalid_input_witness :
    PostService.UpdatePost egUpdateEnv egStore 1 1 ⟨none, none, [], none⟩ =
      (egStore, Except.error Err.InvalidInput) ∧
    UpdatePostHandler.statusOf Err.InvalidInput = StatusCode.PermissionDenied :=
  updatePost_non_author_invalid_input egUpdateEnv egStore 1 1 ⟨none, none, [], none⟩
    ⟨1, 2, "First post", none, 0, 0⟩ rfl rfl (by decide) (by decide)

/-- Claim C4: a DeletePost call whose caller differs from the stored
author returns Forbidden, leaves the store unchanged, and the inbound
handler maps Forbidden to PermissionDenied. -/
theorem deletePost_non_author_forbidden (env : PostService.DeleteEnv) (st : Store)
    (uid id : Int) (p : Post)
    (hbegin : env.beginOk = true) (hget : env.getPostErr = none)
    (hfind : PostRepository.GetByID st id = some p) (hne : p.authorId ≠ uid) :
    PostService.DeletePost env st uid id = (st, Except.error Err.Forbidden) ∧
    DeletePostHandler.statusOf Err.Forbidden = StatusCode.PermissionDenied := by
  refine ⟨?_, rfl⟩
  simp [PostService.DeletePost, PostService.deletePostTx, hbegin, hget, hfind, hne]

/-- Witness for C4: scenario 5 of the specification, caller 1 deleting
post 1 whose author is 2. -/
theorem deletePost_non_author_forbidden_witness :
    PostService.DeletePost egDeleteEnv egStore 1 1 =
      (egStore, Except.error Err.Forbidden) ∧
    DeletePostHandler.statusOf Err.Forbidden = StatusCode.PermissionDenied :=
  deletePost_non_author_forbidden egDeleteEnv egStore 1 1
    ⟨1, 2, "First post", none, 0, 0⟩ rfl rfl (by decide) (by decide)

/-- Auxiliary: find? on an appended list when the first part has no
match. -/
theorem find?_append_of_none {α : Type _} (p : α → Bool) (l1 l2 : List α)
    (h : l1.find? p = none) : (l1 ++ l2).find? p = l2.find? p := by
  induction l1 with
  | nil => rfl
  | cons x xs ih =>
      rcases List.find?_eq_none.mp h x (List.mem_cons_self x xs) with hx
      have hxs : xs.find? p = none :=
        List.find?_eq_none.mpr (fun a ha => List.find?_eq_none.mp h a (List.mem_cons_of_mem x ha))
      simp only [List.cons_append, List.find?, hx, Bool.false_eq_true, if_neg]
      · exact ih hxs

/-- Claim C5: TagRepository.Create is idempotent.  The first create of a
name succeeds; creating the same name again succeeds with the very same
tag row and leaves the store unchanged, rather than returning an error. -/
theorem tagCreate_idempotent (st : Store) (name : String) :
    (∃ t : Tag, (TagRepository.Create st name).2 = Except.ok t) ∧
    (TagRepository.Create (TagRepository.Create st name).1 name).2 =
      (TagRepository.Create st name).2 ∧
    (TagRepository.Create (TagRepository.Create st name).1 name).1 =
      (TagRepository.Create st name).1 := by
  cases hfind : st.tags.find? (fun t => t.name == name) with
  | some t =>
      refine ⟨⟨t, ?_⟩, ?_, ?_⟩ <;> simp [TagRepository.Create, hfind]
  | none =>
      have happ : (st.tags ++ [(⟨st.nextTagId, name⟩ : Tag)]).find?
          (fun t => t.name == name) = some ⟨st.nextTagId, name⟩ := by
        rw [find?_append_of_none _ _ _ hfind]
        simp [List.find?]
      refine ⟨⟨⟨st.nextTagId, name⟩, ?_⟩, ?_, ?_⟩ <;>
        simp [TagRepository.Create, hfind, happ]

/-- Auxiliary for C6: the handler loop at running index i equals the
specification filterMap over the input enumerated from i. -/
theorem dtoMediaItemsGo_eq_spec (l : List PostMediaInput) :
    ∀ i : Nat,
      UpdatePostHandler.dtoMediaItemsGo i l =
        (List.enumFrom i l).filterMap UpdatePostHandler.specItem := by
  induction l with
  | nil => intro i; rfl
  | cons m rest ih =>
      intro i
      cases m with
      | mk url ty pos =>
        simp only [UpdatePostHandler.dtoMediaItemsGo, List.enumFrom, List.filterMap_cons]
        by_cases h : pos < UpdatePostHandler.MinMediaPosition ∨
            pos > UpdatePostHandler.MaxMediaPosition
        · have hnot : ¬(UpdatePostHandler.MinMediaPosition ≤ pos ∧
              pos ≤ UpdatePostHandler.MaxMediaPosition) := by
            simp only [UpdatePostHandler.MinMediaPosition,
              UpdatePostHandler.MaxMediaPosition] at h ⊢
            omega
          by_cases h2 : ((i : Int) + 1) > UpdatePostHandler.MaxMediaPosition
          · have h2n : ¬(((i : Int) + 1) ≤ UpdatePostHandler.MaxMediaPosition) := by
              simp only [UpdatePostHandler.MaxMediaPosition] at h2 ⊢
              omega
            simp [UpdatePostHandler.specItem, h, h2, hnot, h2n, ih]
          · have h2y : ((i : Int) + 1) ≤ UpdatePostHandler.MaxMediaPosition := by
              simp only [UpdatePostHandler.MaxMediaPosition] at h2 ⊢
              omega
            simp [UpdatePostHandler.specItem, h, h2, hnot, h2y, ih]
        · have hyes : UpdatePostHandler.MinMediaPosition ≤ pos ∧
              pos ≤ UpdatePostHandler.MaxMediaPosition := by
            simp only [UpdatePostHandler.MinMediaPosition,
              UpdatePostHandler.MaxMediaPosition] at h ⊢
            omega
          simp [UpdatePostHandler.specItem, h, hyes, ih]

/-- Claim C6: the media normalization of the update handler agrees with
the specification on every input list — an in-bounds position is
forwarded unchanged, an out-of-bounds position is replaced by the
zero-based index plus one, and the item is silently dropped when the
replacement still exceeds nine. -/
theorem dtoMediaItems_eq_spec (media : List PostMediaInput) :
    UpdatePostHandler.dtoMediaItems media = UpdatePostHandler.dtoMediaItemsSpec media :=
  dtoMediaItemsGo_eq_spec media 0

/-- Claim C8: on an existing post with a resolvable author, a
MediaNotFound or TagsNotFound sentinel from the sub-repositories becomes
an empty list in the returned aggregate, while any other media or tag
error fails the call with MediaQueryFailed or TagQueryFailed. -/
theorem getPostByID_sentinel_handling (env : PostService.GetEnv) (post : Post)
    (author : User)
    (hp : env.postResult = Except.ok post) (hu : env.userResult = Except.ok author) :
    (∀ ts, env.mediaResult = Except.error Err.MediaNotFound →
       env.tagsResult = Except.ok ts →
       PostService.GetPostByID env = Except.ok ⟨post, some author, [], ts⟩) ∧
    (∀ ms, env.mediaResult = Except.ok ms →
       env.tagsResult = Except.error Err.TagsNotFound →
       PostService.GetPostByID env = Except.ok ⟨post, some author, ms, []⟩) ∧
    (env.mediaResult = Except.error Err.MediaNotFound →
     env.tagsResult = Except.error Err.TagsNotFound →
       PostService.GetPostByID env = Except.ok ⟨post, some author, [], []⟩) ∧
    (∀ e, env.mediaResult = Except.error e → e ≠ Err.MediaNotFound →
       PostService.GetPostByID env = Except.error Err.MediaQueryFailed) ∧
    (∀ ms e, env.mediaResult = Except.ok ms → env.tagsResult = Except.error e →
       e ≠ Err.TagsNotFound →
       PostService.GetPostByID env = Except.error Err.TagQueryFailed) := by
  refine ⟨?_, ?_, ?_, ?_, ?_⟩
  · intro ts hm ht
    simp [PostService.GetPostByID, hp, hu, hm, ht]
  · intro ms hm ht
    simp [PostService.GetPostByID, hp, hu, hm, ht]
  · intro hm ht
    simp [PostService.GetPostByID, hp, hu, hm, ht]
  · intro e hm hne
    simp [PostService.GetPostByID, hp, hu, hm, hne]
  · intro ms e hm ht hne
    simp [PostService.GetPostByID, hp, hu, hm, ht, hne]

/-- Witness for C8: a media MediaNotFound sentinel collapses to an empty
media list, and a media DatabaseQuery error fails with MediaQueryFailed. -/
theorem getPostByID_sentinel_handling_witness :
    PostService.GetPostByID
        ⟨Except.ok ⟨1, 2, "First post", none, 0, 0⟩, Except.ok ⟨2, "testuser"⟩,
         Except.error Err.MediaNotFound, Except.ok [⟨3, "tag1"⟩]⟩ =
      Except.ok ⟨⟨1, 2, "First post", none, 0, 0⟩, some ⟨2, "testuser"⟩, [], [⟨3, "tag1"⟩]⟩ ∧
    PostService.GetPostByID
        ⟨Except.ok ⟨1, 2, "First post", none, 0, 0⟩, Except.ok ⟨2, "testuser"⟩,
         Except.error Err.DatabaseQuery, Except.ok [⟨3, "tag1"⟩]⟩ =
      Except.error Err.MediaQueryFailed :=
  ⟨(getPostByID_sentinel_handling _ _ _ rfl rfl).1 [⟨3, "tag1"⟩] rfl rfl,
   (getPostByID_sentinel_handling _ _ _ rfl rfl).2.2.2.1 Err.DatabaseQuery rfl (by decide)⟩

/-- Auxiliary for C10: no SET clause changes the row id. -/
theorem applyClause_id (now : Int) (p : Post) (c : PostRepository.SetClause) :
    (PostRepository.applyClause now p c).id = p.id := by
  cases c <;> rfl

/-- Auxiliary for C10: folding SET clauses preserves the row id. -/
theorem foldl_applyClause_id (now : Int) (cs : List PostRepository.SetClause) :
    ∀ p : Post, (cs.foldl (PostRepository.applyClause now) p).id = p.id := by
  induction cs with
  | nil => intro p; rfl
  | cons c rest ih =>
      intro p
      rw [List.foldl_cons, ih (PostRepository.applyClause now p c), applyClause_id]

/-- Claim C10: the updated_at clause is appended before the empty-clause
check, so the SET list is never empty, the NoUpdateRows branch is
unreachable, and every update of an existing post — even one providing
neither title nor content — succeeds and sets updated_at to the current
time. -/
theorem postUpdate_no_update_rows_unreachable (now : Int) (st : Store) (id : Int)
    (u : UpdatePostDTO) :
    (PostRepository.buildSetClauses u).length ≠ 0 ∧
    (PostRepository.Update now st id u).2 ≠ Except.error Err.NoUpdateRows ∧
    (∀ p, PostRepository.GetByID st id = some p →
       ∃ q, (PostRepository.Update now st id u).2 = Except.ok q ∧
            q.id = p.id ∧ q.updatedAt = now) := by
  have hlen : (PostRepository.buildSetClauses u).length ≠ 0 := by
    simp [PostRepository.buildSetClauses]
  have hcond : ((PostRepository.buildSetClauses u).length == 0) = false := by
    simpa using hlen
  refine ⟨hlen, ?_, ?_⟩
  · simp only [PostRepository.Update, hcond, Bool.false_eq_true, if_false]
    cases hfind : st.posts.find? (fun p => p.id == id) <;> simp
  · intro p hp
    have hp2 : st.posts.find? (fun q => q.id == id) = some p := hp
    refine ⟨(PostRepository.buildSetClauses u).foldl (PostRepository.applyClause now) p,
            ?_, foldl_applyClause_id now _ p, ?_⟩
    · simp [PostRepository.Update, hcond, hp2]
    · have hsplit : PostRepository.buildSetClauses u =
          ((match u.title with
            | some t => if t ≠ "" then [PostRepository.SetClause.title t] else []
            | none => []) ++
           (match u.content with
            | some c => if c ≠ "" then [PostRepository.SetClause.content c] else []
            | none => [])) ++ [PostRepository.SetClause.updatedAt] := rfl
      rw [hsplit, List.foldl_append]
      rfl

/-- Auxiliary for C9: when every user-cache read fails, the author
substitution loop of the list decorator leaves the detailed posts
unchanged. -/
theorem listAuthorsLoop_all_miss (env : CacheEnv)
    (h : ∀ a : Int, ∃ er : Err, env.getUser a = Except.error er) :
    ∀ (ids : List Int) (posts : List PostDetailed),
      (PostServiceCacheDecorator.listAuthorsLoop env ids posts).1 = posts := by
  intro ids
  induction ids with
  | nil => intro posts; rfl
  | cons a rest ih =>
      intro posts
      rcases h a with ⟨er, her⟩
      simp [PostServiceCacheDecorator.listAuthorsLoop, her, ih]

/-- Claim C9: every method of the cache decorator returns an inner error
unchanged and attempts no cache mutation for that call; conversely a
successful inner result is returned as such whatever the cache transport
does, and, when every cache read fails, it is returned exactly. -/
theorem decorator_error_transparency (env : CacheEnv) (dto : CreatePostDTO)
    (id : Int) (e : Err) (pd : PostDetailed) (lp : List PostDetailed × Nat) :
    (PostServiceCacheDecorator.CreatePost env dto (Except.error e) =
       (Except.error e, [])) ∧
    (∀ ce : Err, env.getPost = Except.error ce →
       PostServiceCacheDecorator.GetPostByID env (Except.error e) =
         (Except.error e, [])) ∧
    (PostServiceCacheDecorator.ListPosts env (Except.error e) = (Except.error e, [])) ∧
    (PostServiceCacheDecorator.UpdatePost env id (Except.error e) = (Except.error e, [])) ∧
    (PostServiceCacheDecorator.DeletePost env id (Except.error e) = (Except.error e, [])) ∧
    ((PostServiceCacheDecorator.CreatePost env dto (Except.ok pd)).1 = Except.ok pd) ∧
    (∀ ce : Err, env.getPost = Except.error ce →
       (PostServiceCacheDecorator.GetPostByID env (Except.ok pd)).1 = Except.ok pd) ∧
    ((PostServiceCacheDecorator.UpdatePost env id (Except.ok ())).1 = Except.ok ()) ∧
    ((PostServiceCacheDecorator.DeletePost env id (Except.ok ())).1 = Except.ok ()) ∧
    ((∀ a : Int, ∃ er : Err, env.getUser a = Except.error er) →
       (PostServiceCacheDecorator.ListPosts env (Except.ok lp)).1 = Except.ok lp) := by
  refine ⟨rfl, ?_, rfl, rfl, rfl, rfl, ?_, rfl, rfl, ?_⟩
  · intro ce hce
    simp [PostServiceCacheDecorator.GetPostByID, hce]
  · intro ce hce
    simp [PostServiceCacheDecorator.GetPostByID, hce]
  · intro h
    cases lp with
    | mk posts total =>
      simp [PostServiceCacheDecorator.ListPosts, listAuthorsLoop_all_miss env h]

/-- Auxiliary for C7: the paged result of ListPosts is a sublist of the
sorted matching sequence. -/
theorem listPosts_fst_sublist (st : Store) (f : PostFilters) :
    (PostRepository.ListPosts st f).1.Sublist
      (PostRepository.sortByCreatedDesc
        (st.posts.filter (PostRepository.matchesFilters st f))) := by
  rcases ho : f.offset with _ | o <;> rcases hl : f.limit with _ | l <;>
    simp only [PostRepository.ListPosts, ho, hl]
  · exact List.Sublist.refl _
  · exact List.take_sublist l _
  · exact List.drop_sublist o _
  · exact (List.take_sublist l _).trans (List.drop_sublist o _)

/-- Claim C7: for every filter set, ListPosts returns a sequence with
pairwise-distinct post ids (given the primary-key invariant of the posts
table), ordered by created_at descending, and a total equal to the
length of the result of the same query with limit and offset absent, so
the total is computed under the non-pagination predicate alone. -/
theorem listPosts_distinct_sorted_total (st : Store) (f : PostFilters)
    (hwf : (st.posts.map Post.id).Pairwise (· ≠ ·)) :
    ((PostRepository.ListPosts st f).1.map Post.id).Pairwise (· ≠ ·) ∧
    (PostRepository.ListPosts st f).1.Pairwise
      (fun a b => b.createdAt ≤ a.createdAt) ∧
    (PostRepository.ListPosts st f).2 =
      (PostRepository.ListPosts st
        { f with limit := none, offset := none }).1.length := by
  have hsub := listPosts_fst_sublist st f
  refine ⟨?_, ?_, ?_⟩
  · have hp : st.posts.Pairwise (fun a b => a.id ≠ b.id) := List.pairwise_map.mp hwf
    have hmatch : (st.posts.filter (PostRepository.matchesFilters st f)).Pairwise
        (fun a b => a.id ≠ b.id) :=
      List.Pairwise.sublist (List.filter_sublist _) hp
    have hsorted : (PostRepository.sortByCreatedDesc
        (st.posts.filter (PostRepository.matchesFilters st f))).Pairwise
        (fun a b => a.id ≠ b.id) :=
      ((sortLe_perm _ _).pairwise_iff (fun hxy => hxy.symm)).mpr hmatch
    exact List.pairwise_map.mpr (List.Pairwise.sublist hsub hsorted)
  · have hs := sortLe_pairwise (fun a b => decide (b.createdAt ≤ a.createdAt))
      (fun a b c hab hbc => by
        have h1 := of_decide_eq_true hab
        have h2 := of_decide_eq_true hbc
        exact decide_eq_true_eq.mpr (le_trans h2 h1))
      (fun a b hab => by
        have h1 : ¬(b.createdAt ≤ a.createdAt) := by
          simpa using hab
        exact decide_eq_true_eq.mpr (le_of_not_le h1))
      (st.posts.filter (PostRepository.matchesFilters st f))
    have hs2 : (PostRepository.sortByCreatedDesc
        (st.posts.filter (PostRepository.matchesFilters st f))).Pairwise
        (fun a b => b.createdAt ≤ a.createdAt) :=
      hs.imp (fun hab => of_decide_eq_true hab)
    exact List.Pairwise.sublist hsub hs2
  · have hlen : (PostRepository.ListPosts st
        { f with limit := none, offset := none }).1.length =
        (st.posts.filter (PostRepository.matchesFilters st f)).length := by
      simp only [PostRepository.ListPosts]
      exact (sortLe_perm _ _).length_eq
    rw [hlen]
    rfl

/-- Auxiliary for C2: assigning server ids preserves the owner of every
inserted media row. -/
theorem assignIds_mem_postId (id : Int) :
    ∀ (rows : List PostMedia) (n now : Int),
      (∀ r ∈ rows, (r.postId == id) = true) →
      ∀ r2 ∈ MediaRepository.assignIds n now rows, (r2.postId == id) = true := by
  intro rows
  induction rows with
  | nil =>
      intro n now _ r2 hr2
      cases hr2
  | cons r rest ih =>
      intro n now h r2 hr2
      rcases List.mem_cons.mp hr2 with hr2 | hr2
      · subst hr2
        exact h r (List.mem_cons_self r rest)
      · exact ih (n + 1) now (fun r3 hr3 => h r3 (List.mem_cons_of_mem r hr3)) r2 hr2

/-- Auxiliary for C2: assigning server ids preserves the url, type and
position of every inserted media row. -/
theorem assignIds_obs :
    ∀ (rows : List PostMedia) (n now : Int),
      (MediaRepository.assignIds n now rows).map (fun m => (m.url, m.type, m.position)) =
        rows.map (fun m => (m.url, m.type, m.position)) := by
  intro rows
  induction rows with
  | nil => intro n now; rfl
  | cons r rest ih =>
      intro n now
      simp [MediaRepository.assignIds, ih]

/-- Auxiliary for C2: the successful media block detaches every existing
row of the post and attaches exactly the provided items, so the media of
the post in the resulting store observe the provided list. -/
theorem updateMediaStep_media (env : PostService.UpdateEnv) (st : Store) (id : Int)
    (items : List PostMediaInput)
    (hgm : env.getMediaErr = none) (hdet : env.detachErr = none)
    (hatt : env.attachErr = none) (hitems : items ≠ []) :
    ∃ st2, PostService.updateMediaStep env st id items = Except.ok st2 ∧
      (st2.media.filter (fun m => m.postId == id)).map
          (fun m => (m.url, m.type, m.position)) =
        items.map (fun m => (m.url, m.type, m.position)) := by
  have hlen : items.length > 0 := List.length_pos.mpr hitems
  refine ⟨MediaRepository.Attach env.now
      (MediaRepository.Detach st ((MediaRepository.GetByPost st id).map PostMedia.id))
      (items.map (fun m => ⟨0, id, m.url, m.type, m.position, 0⟩)), ?_, ?_⟩
  · simp [PostService.updateMediaStep, hgm, hdet, hatt, hlen]
  · have hfil1 : ((st.media.filter (fun m =>
        !(((MediaRepository.GetByPost st id).map PostMedia.id).contains m.id))).filter
          (fun m => m.postId == id)) = [] := by
      apply List.filter_eq_nil_iff.mpr
      intro m hm
      rcases List.mem_filter.mp hm with ⟨hmem, hnc⟩
      intro hpost
      have hmem2 : m ∈ st.media.filter (fun x => x.postId == id) :=
        List.mem_filter.mpr ⟨hmem, hpost⟩
      have hmem3 : m ∈ MediaRepository.GetByPost st id :=
        (sortLe_perm _ _).mem_iff.mpr hmem2
      have hid : m.id ∈ (MediaRepository.GetByPost st id).map PostMedia.id :=
        List.mem_map_of_mem PostMedia.id hmem3
      have hcontains : ((MediaRepository.GetByPost st id).map PostMedia.id).contains m.id =
          true := List.elem_iff.mpr hid
      rw [hcontains] at hnc
      cases hnc
    have hall : ∀ r ∈ (items.map (fun m =>
        (⟨0, id, m.url, m.type, m.position, 0⟩ : PostMedia))), (r.postId == id) = true := by
      intro r hr
      rcases List.mem_map.mp hr with ⟨i, _, hi⟩
      rw [← hi]
      simp
    have hfil2 : (MediaRepository.assignIds st.nextMediaId env.now
        (items.map (fun m => ⟨0, id, m.url, m.type, m.position, 0⟩))).filter
          (fun m => m.postId == id) =
        MediaRepository.assignIds st.nextMediaId env.now
          (items.map (fun m => ⟨0, id, m.url, m.type, m.position, 0⟩)) :=
      List.filter_eq_self.mpr
        (assignIds_mem_postId id _ st.nextMediaId env.now hall)
    show (((st.media.filter (fun m =>
        !(((MediaRepository.GetByPost st id).map PostMedia.id).contains m.id))) ++
        MediaRepository.assignIds st.nextMediaId env.now
          (items.map (fun m => ⟨0, id, m.url, m.type, m.position, 0⟩))).filter
        (fun m => m.postId == id)).map (fun m => (m.url, m.type, m.position)) =
      items.map (fun m => (m.url, m.type, m.position))
    rw [List.filter_append, hfil1, hfil2, List.nil_append, assignIds_obs, List.map_map]
    rfl

/-- Auxiliary for C2: the idempotent tag create never touches media. -/
theorem tagCreate_media (st : Store) (n : String) :
    (TagRepository.Create st n).1.media = st.media := by
  unfold TagRepository.Create
  cases st.tags.find? (fun t => t.name == n) <;> rfl

/-- Auxiliary for C2: a fold whose step preserves media preserves media. -/
theorem foldl_media_invariant (f : Store → String → Store)
    (h : ∀ st n, (f st n).media = st.media) :
    ∀ (names : List String) (st : Store), (names.foldl f st).media = st.media := by
  intro names
  induction names with
  | nil => intro st; rfl
  | cons n rest ih =>
      intro st
      rw [List.foldl_cons, ih (f st n), h]

/-- Auxiliary for C2: linking tags to a post never touches media. -/
theorem tagPost_media (st : Store) (postID : Int) (names : List String) :
    (TagRepository.TagPost st postID names).media = st.media := by
  apply foldl_media_invariant
  intro st2 n
  rcases hr : TagRepository.resolveTagId st2 n with _ | tid
  · simp [hr]
  · simp only [hr]
    cases hc : st2.postTags.contains (postID, tid) <;> simp [hc]

/-- Auxiliary for C2: replacing the tag links of a post never touches
media. -/
theorem replacePostTags_media (st : Store) (postID : Int) (names : List String) :
    (TagRepository.ReplacePostTags st postID names).media = st.media := by
  unfold TagRepository.ReplacePostTags
  rw [tagPost_media]

/-- Auxiliary for C2: when every tag create call succeeds, the tag
creation loop of UpdatePost succeeds and never touches media. -/
theorem updateTagsLoop_ok (env : PostService.UpdateEnv)
    (htc : ∀ n, env.tagCreateErr n = none) :
    ∀ (names : List String) (st : Store),
      ∃ st2, PostService.updateTagsLoop env st names = Except.ok st2 ∧
        st2.media = st.media := by
  intro names
  induction names with
  | nil => intro st; exact ⟨st, rfl, rfl⟩
  | cons n rest ih =>
      intro st
      rcases ih (TagRepository.Create st n).1 with ⟨st2, hst2, hm⟩
      refine ⟨st2, ?_, ?_⟩
      · simp [PostService.updateTagsLoop, htc n, hst2]
      · rw [hm, tagCreate_media]

/-- Auxiliary for C2: when the tag collaborators succeed, the tag block
of UpdatePost succeeds and never touches media. -/
theorem updateTagsStep_ok (env : PostService.UpdateEnv)
    (htc : ∀ n, env.tagCreateErr n = none) (hrt : env.replaceTagsErr = none)
    (st : Store) (id : Int) (tags : List String) :
    ∃ st2, PostService.updateTagsStep env st id tags = Except.ok st2 ∧
      st2.media = st.media := by
  rcases updateTagsLoop_ok env htc tags st with ⟨st1, h1, hm1⟩
  refine ⟨TagRepository.ReplacePostTags st1 id tags, ?_, ?_⟩
  · simp [PostService.updateTagsStep, h1, hrt]
  · rw [replacePostTags_media, hm1]

/-- Counterexample for C2: an UpdatePost whose DTO carries media_items
present as an empty list succeeds without touching the media of the
post: the pre-existing media row survives, so the media set does not
equal the provided (empty) list. -/
theorem updatePost_empty_media_list_counterexample :
    (PostService.UpdatePost egUpdateEnv egStore 2 1 ⟨none, none, [], some []⟩).2 =
      Except.ok () ∧
    (PostService.UpdatePost egUpdateEnv egStore 2 1 ⟨none, none, [], some []⟩).1.media =
      [⟨5, 1, "http://example.com/a.jpg", "image", 1, 0⟩] ∧
    (PostService.UpdatePost egUpdateEnv egStore 2 1
        ⟨none, none, [], some []⟩).1.media.filter (fun m => m.postId == 1) ≠ [] := by
  refine ⟨?_, ?_, ?_⟩ <;> decide

/-- Claim C2 (amended): for every UpdatePost call whose DTO has a
non-empty media_items list and whose collaborators succeed, the stored
media set of the post afterwards observes exactly the provided list, the
existing rows having been detached and the new ones attached; a detach
or attach failure in this block maps to MediaAttachFailed.  A media_items
field present as an empty list does not reach this block. -/
theorem updatePost_media_replacement (env : PostService.UpdateEnv) (st : Store)
    (uid id : Int) (dto : UpdatePostDTO) (p : Post)
    (hbegin : env.beginOk = true) (hget : env.getPostErr = none)
    (hfind : PostRepository.GetByID st id = some p) (hauth : p.authorId = uid)
    (hupd : env.updateErr = none) (hgm : env.getMediaErr = none)
    (hdet : env.detachErr = none) (hatt : env.attachErr = none)
    (htc : ∀ n, env.tagCreateErr n = none) (hrt : env.replaceTagsErr = none)
    (hcommit : env.commitOk = true)
    (hitems : (dto.mediaItems.getD []) ≠ []) :
    ((PostService.UpdatePost env st uid id dto).2 = Except.ok () ∧
     ((PostService.UpdatePost env st uid id dto).1.media.filter
         (fun m => m.postId == id)).map (fun m => (m.url, m.type, m.position)) =
       (dto.mediaItems.getD []).map (fun m => (m.url, m.type, m.position))) ∧
    (∀ (st2 : Store) (e2 : Err),
       PostService.updateMediaStep { env with detachErr := some e2 } st2 id
         (dto.mediaItems.getD []) = Except.error Err.MediaAttachFailed) ∧
    (∀ (st2 : Store) (e2 : Err),
       PostService.updateMediaStep { env with attachErr := some e2 } st2 id
         (dto.mediaItems.getD []) = Except.error Err.MediaAttachFailed) := by
  have hplen : (dto.mediaItems.getD []).length > 0 := List.length_pos.mpr hitems
  have hlen0 : (PostRepository.buildSetClauses dto).length ≠ 0 := by
    simp [PostRepository.buildSetClauses]
  have hcond : ((PostRepository.buildSetClauses dto).length == 0) = false := by
    simpa using hlen0
  have hfind2 : st.posts.find? (fun q => q.id == id) = some p := hfind
  have hsnd : (PostRepository.Update env.now st id dto).2 =
      Except.ok ((PostRepository.buildSetClauses dto).foldl
        (PostRepository.applyClause env.now) p) := by
    simp [PostRepository.Update, hcond, hfind2]
  have hpair : PostRepository.Update env.now st id dto =
      ((PostRepository.Update env.now st id dto).1,
       Except.ok ((PostRepository.buildSetClauses dto).foldl
         (PostRepository.applyClause env.now) p)) := by
    rw [← hsnd]
  obtain ⟨stM, hstM, hobs⟩ := updateMediaStep_media env
    (PostRepository.Update env.now st id dto).1 id (dto.mediaItems.getD [])
    hgm hdet hatt hitems
  have htag : ∃ stT, (if dto.tags.length > 0 then
      PostService.updateTagsStep env stM id dto.tags else Except.ok stM) =
      Except.ok stT ∧ stT.media = stM.media := by
    by_cases hT : dto.tags.length > 0
    · rcases updateTagsStep_ok env htc hrt stM id dto.tags with ⟨stT, h1, h2⟩
      exact ⟨stT, by simp [hT, h1], h2⟩
    · exact ⟨stM, by simp [hT], rfl⟩
  obtain ⟨stT, hT, hTm⟩ := htag
  have hne : ¬(p.authorId ≠ uid) := by
    simp [hauth]
  have htx : PostService.updatePostTx env st uid id dto = Except.ok stT := by
    simp only [PostService.updatePostTx, hget, hfind, hupd]
    rw [if_neg hne, hpair]
    simp only [if_pos hplen, hstM, hT]
  have hfin : PostService.UpdatePost env st uid id dto = (stT, Except.ok ()) := by
    simp only [PostService.UpdatePost, hbegin, htx, hcommit, if_true]
  refine ⟨⟨?_, ?_⟩, ?_, ?_⟩
  · rw [hfin]
  · rw [hfin]
    show ((stT.media.filter (fun m => m.postId == id)).map
        (fun m => (m.url, m.type, m.position)) =
      (dto.mediaItems.getD []).map (fun m => (m.url, m.type, m.position)))
    rw [hTm]
    exact hobs
  · intro st2 e2
    simp [PostService.updateMediaStep, hgm]
  · intro st2 e2
    simp [PostService.updateMediaStep, hgm, hdet, hplen]

/-- Update DTO for the C2 witness: one replacement media item. -/
def egUpdateDTONewMedia : UpdatePostDTO :=
  ⟨none, none, [], some [⟨"http://example.com/b.jpg", "image", 2⟩]⟩

/-- Witness for C2: replacing the single media row of post 1 by a new
item leaves the post carrying exactly the provided item. -/
theorem updatePost_media_replacement_witness :
    (PostService.UpdatePost egUpdateEnv egStore 2 1 egUpdateDTONewMedia).2 =
      Except.ok () ∧
    ((PostService.UpdatePost egUpdateEnv egStore 2 1 egUpdateDTONewMedia).1.media.filter
        (fun m => m.postId == 1)).map (fun m => (m.url, m.type, m.position)) =
      [("http://example.com/b.jpg", "image", (2 : Int))] :=
  ⟨(updatePost_media_replacement egUpdateEnv egStore 2 1 egUpdateDTONewMedia
      ⟨1, 2, "First post", none, 0, 0⟩ rfl rfl (by decide) rfl rfl rfl rfl rfl
      (fun _ => rfl) rfl rfl (by decide)).1.1,
   (updatePost_media_replacement egUpdateEnv egStore 2 1 egUpdateDTONewMedia
      ⟨1, 2, "First post", none, 0, 0⟩ rfl rfl (by decide) rfl rfl rfl rfl rfl
      (fun _ => rfl) rfl rfl (by decide)).1.2⟩

/-- Store with two posts for the C7 witness. -/
def egListStore : Store where
  posts := [⟨1, 2, "First post", none, 5, 5⟩, ⟨2, 2, "Second post", none, 8, 8⟩]
  media := []
  tags := []
  postTags := []
  nextPostId := 3
  nextMediaId := 1
  nextTagId := 1

/-- Filters of end-to-end scenario 6: limit 10, offset 0. -/
def egFilters : PostFilters where
  authorId := none
  tagNames := []
  createdAfter := none
  createdBefore := none
  limit := some 10
  offset := some 0

/-- Witness for C7: the two-post listing of scenario 6. -/
theorem listPosts_distinct_sorted_total_witness :
    ((PostRepository.ListPosts egListStore egFilters).1.map Post.id).Pairwise (· ≠ ·) ∧
    (PostRepository.ListPosts egListStore egFilters).1.Pairwise
      (fun a b => b.createdAt ≤ a.createdAt) ∧
    (PostRepository.ListPosts egListStore egFilters).2 =
      (PostRepository.ListPosts egListStore
        { egFilters with limit := none, offset := none }).1.length :=
  listPosts_distinct_sorted_total egListStore egFilters (by decide)

/-- Cache environment for the C9 witness: the post-cache read misses,
every user-cache read misses, and every cache write fails. -/
def egCacheEnv : CacheEnv where
  getPost := Except.error Err.CacheMiss
  getUser := fun _ => Except.error Err.CacheMiss
  setPostErr := some Err.InternalServiceError
  setUserErr := some Err.InternalServiceError
  deleteUserErr := some Err.InternalServiceError
  deletePostErr := some Err.InternalServiceError

/-- Witness for C9: a Forbidden inner error passes through UpdatePost
untouched with no cache mutation, and a successful inner list result is
returned exactly even though every cache call fails. -/
theorem decorator_error_transparency_witness :
    PostServiceCacheDecorator.UpdatePost egCacheEnv 1 (Except.error Err.Forbidden) =
      (Except.error Err.Forbidden, []) ∧
    (PostServiceCacheDecorator.ListPosts egCacheEnv
        (Except.ok ([⟨⟨1, 2, "First post", none, 0, 0⟩, some ⟨2, "testuser"⟩, [], []⟩], 1))).1 =
      Except.ok ([⟨⟨1, 2, "First post", none, 0, 0⟩, some ⟨2, "testuser"⟩, [], []⟩], 1) :=
  ⟨(decorator_error_transparency egCacheEnv egCreateDTO 1 Err.Forbidden
      ⟨⟨1, 2, "First post", none, 0, 0⟩, none, [], []⟩
      ([⟨⟨1, 2, "First post", none, 0, 0⟩, some ⟨2, "testuser"⟩, [], []⟩], 1)).2.2.2.1,
   (decorator_error_transparency egCacheEnv egCreateDTO 1 Err.Forbidden
      ⟨⟨1, 2, "First post", none, 0, 0⟩, none, [], []⟩
      ([⟨⟨1, 2, "First post", none, 0, 0⟩, some ⟨2, "testuser"⟩, [], []⟩], 1)).2.2.2.2.2.2.2.2.2
     (fun _ => ⟨Err.CacheMiss, rfl⟩)⟩

/-- Witness for C10: updating the existing post 1 with an update DTO that
provides neither title nor content still succeeds and bumps updated_at. -/
theorem postUpdate_no_update_rows_unreachable_witness :
    (PostRepository.buildSetClauses ⟨none, none, [], none⟩).length ≠ 0 ∧
    ∃ q, (PostRepository.Update 10 egStore 1 ⟨none, none, [], none⟩).2 = Except.ok q ∧
         q.id = 1 ∧ q.updatedAt = 10 :=
  ⟨(postUpdate_no_update_rows_unreachable 10 egStore 1 ⟨none, none, [], none⟩).1,
   (postUpdate_no_update_rows_unreachable 10 egStore 1 ⟨none, none, [], none⟩).2.2
     ⟨1, 2, "First post", none, 0, 0⟩ (by decide)⟩

end Pinstack
